import Mathlib

/-!
Verification of the document ingestion and text-segmentation pipeline of the
Research-Paper-Summarizer repository.  The Python sources are embedded
shallowly: text is `List Char`, machine state is passed explicitly, and
fallible code returns `Except` or `Option`.  Each embedded definition mirrors
one function of the source tree (paths given in the doc comments).
-/

namespace RPS

/-- Text is modelled as a list of characters, mirroring Python `str`
(the repository only manipulates ASCII in the code paths verified here). -/
abbrev Str := List Char

/-- Python whitespace test used by `str.strip` and `str.split()`. -/
def pyIsSpace (c : Char) : Bool := c.isWhitespace

/-- Python `str.lower()` (ASCII case folding). -/
def pyLower (s : Str) : Str := s.map Char.toLower

/-- Python `str.strip()`: drop whitespace from both ends. -/
def pyStrip (s : Str) : Str :=
  ((s.dropWhile pyIsSpace).reverse.dropWhile pyIsSpace).reverse

/-- Accumulator worker for `pySplitWs`; `acc` holds the characters of the
current token in reverse order. -/
def splitWsAux : Str → Str → List Str
  | [], acc => if acc.isEmpty then [] else [acc.reverse]
  | c :: cs, acc =>
    if pyIsSpace c then
      if acc.isEmpty then splitWsAux cs [] else acc.reverse :: splitWsAux cs []
    else splitWsAux cs (c :: acc)

/-- Python `str.split()` with no arguments: whitespace-delimited tokens,
empty tokens dropped. -/
def pySplitWs (s : Str) : List Str := splitWsAux s []

/-- Python `str.split(sep)` for a one-character separator: keeps empty
pieces, always returns at least one piece. -/
def pySplitOnChar (sep : Char) : Str → List Str
  | [] => [[]]
  | c :: cs =>
    if c = sep then [] :: pySplitOnChar sep cs
    else
      match pySplitOnChar sep cs with
      | [] => [[c]]
      | t :: ts => (c :: t) :: ts

/-- Python `sep.join(parts)`. -/
def pyJoin (sep : Str) : List Str → Str
  | [] => []
  | [t] => t
  | t :: ts => t ++ sep ++ pyJoin sep ts

/-- Worker for `pyFind`: first absolute index `≥ i` at which `pat` occurs. -/
def findPat (pat : Str) : Str → Nat → Option Nat
  | [], i => if pat.isPrefixOf ([] : Str) then some i else none
  | c :: cs, i =>
    if pat.isPrefixOf (c :: cs) then some i else findPat pat cs (i + 1)

/-- Python `s.find(pat, start)` returning `none` instead of `-1`. -/
def pyFind (s pat : Str) (start : Nat) : Option Nat :=
  findPat pat (s.drop start) start

/-- Python `pat in s` for a nonempty pattern. -/
def pyContains (s pat : Str) : Bool := (pyFind s pat 0).isSome

/-- Python `s.isdigit()` for ASCII text: nonempty and all digits. -/
def pyIsDigitStr (s : Str) : Bool := !s.isEmpty && s.all Char.isDigit

/-- Python `s.rfind(c)` for a single character, as an `Option`. -/
def pyRFindChar : Str → Char → Option Nat
  | [], _ => none
  | x :: xs, c =>
    match pyRFindChar xs c with
    | some i => some (i + 1)
    | none => if x = c then some 0 else none

/-- CPython `pathlib.PurePath.suffix`: the final extension including the dot,
empty when the last dot is the first character or the last character. -/
def pathSuffix (name : Str) : Str :=
  match pyRFindChar name '.' with
  | some i => if 0 < i ∧ i + 1 < name.length then name.drop i else []
  | none => []

/-! ## SectionDetector: `FileService._is_section_header`
(src/backend/services/file_service.py, lines 316-336) -/

/-- The fixed header vocabulary of `_is_section_header`. -/
def section_keywords : List Str :=
  ["abstract", "introduction", "methodology", "methods",
   "results", "discussion", "conclusion", "references",
   "acknowledgments", "appendix"].map String.toList

/-- `FileService._is_section_header`: strip the line; a line of at most 3
whitespace tokens is a header exactly when it contains a keyword; otherwise
the line is a header exactly when the text before the first period is all
digits. -/
def is_section_header (line : Str) : Bool :=
  let line := pyStrip line
  if (pySplitWs line).length ≤ 3 then
    let lower := pyLower line
    section_keywords.any (fun k => pyContains lower k)
  else if pyIsDigitStr ((pySplitOnChar '.' line).headD []) then true
  else false

/-! ## FormatExtractor: abstract extraction
(`FileService._extract_abstract`, src/backend/services/file_service.py,
lines 351-379) -/

/-- The end markers bounding an abstract, in the order the source scans
them. -/
def endMarkers : List Str :=
  ["introduction".toList, "keywords".toList, "1.".toList, ['\n', '\n', '\n']]

/-- `lower_content.find('abstract')` of `_extract_abstract`. -/
def abstractStart (s : Str) : Option Nat :=
  pyFind (pyLower s) ("abstract".toList) 0

/-- The bounded, stripped abstract candidate of `_extract_abstract`: the end
position is the least end-marker occurrence found after `i + 8` (defaulting
to the text length), the slice `content[i:end]` is stripped, and a leading
case-insensitive "abstract" token is removed. -/
def abstractCandidate (s : Str) (i : Nat) : Str :=
  let lower := pyLower s
  let abstractEnd := endMarkers.foldl
    (fun acc m =>
      match pyFind lower m (i + 8) with
      | some pos => if pos < acc then pos else acc
      | none => acc)
    s.length
  let a := pyStrip ((s.take abstractEnd).drop i)
  if ("abstract".toList).isPrefixOf (pyLower a) then pyStrip (a.drop 8) else a

/-- The candidate after the 300-word truncation step of `_extract_abstract`
(the ellipsis marker is appended only when truncation occurred). -/
def abstractResult (s : Str) (i : Nat) : Str :=
  let a := abstractCandidate s i
  let words := pySplitWs a
  if 300 < words.length then pyJoin [' '] (words.take 300) ++ ("...".toList)
  else a

/-- `FileService._extract_abstract`: `none` when "abstract" does not occur or
when the final text has 50 characters or fewer. -/
def extract_abstract (s : Str) : Option Str :=
  match abstractStart s with
  | none => none
  | some i =>
    let r := abstractResult s i
    if 50 < r.length then some r else none

/-! ## Data model (src/backend/models/document.py) -/

/-- `DocumentStatus` (models/document.py, lines 21-27). -/
inductive DocumentStatus
  | uploading
  | processing
  | ready
  | failed
  | deleted
deriving DecidableEq, Repr

/-- `DocumentSection` (models/document.py, lines 30-42). -/
structure DocumentSection where
  title : Str
  content : Str
  page_numbers : List Nat := []
  word_count : Nat := 0
deriving DecidableEq, Repr

/-- `DocumentMetadata` (models/document.py, lines 45-68); fields not touched
by the verified code paths are omitted. -/
structure DocumentMetadata where
  title : Option Str := none
  authors : List Str := []
  abstract : Option Str := none
  keywords : List Str := []
  sections : List DocumentSection := []
  total_pages : Option Nat := none
  total_words : Option Nat := none
  main_topics : List Str := []
  key_findings : List Str := []
deriving DecidableEq, Repr

/-- `DocumentInDB` (models/document.py, lines 103-141); timestamps are a
logical clock (`Nat`), ids are text. -/
structure DocumentInDB where
  id : Str := []
  user_id : Str := []
  filename : Str := []
  file_size : Nat := 0
  file_path : Str := []
  content : Option Str := none
  metadata : DocumentMetadata := {}
  status : DocumentStatus := .uploading
  upload_date : Nat := 0
  processed_date : Option Nat := none
  last_accessed : Nat := 0
  tags : List Str := []
  notes : Option Str := none
  processing_time_seconds : Option Nat := none
  error_message : Option Str := none
deriving DecidableEq, Repr

/-- `DocumentUpdate` (models/document.py, lines 94-100).  Exactly the five
declared fields; `none` models an unset field under pydantic's
`exclude_unset`.  The schema has NO `error_message` and no
`content_embedding` field. -/
structure DocumentUpdate where
  metadata : Option DocumentMetadata := none
  status : Option DocumentStatus := none
  content : Option Str := none
  tags : Option (List Str) := none
  notes : Option Str := none
deriving DecidableEq, Repr

/-! ## FormatExtractor: TXT path
(`FileService._extract_from_txt`, src/backend/services/file_service.py,
lines 227-242) -/

/-- `FileService._extract_from_txt` applied to the decoded UTF-8 text:
`total_words` is the whitespace token count, `title` is the stripped first
line (Python `content.split('\n')` is never empty), and `abstract` comes
from `_extract_abstract`. -/
def extract_from_txt (content : Str) : Str × DocumentMetadata :=
  let metadata : DocumentMetadata := {}
  let metadata := { metadata with total_words := some (pySplitWs content).length }
  let lines := pySplitOnChar '\n' content
  let metadata :=
    if lines.isEmpty then metadata
    else { metadata with title := some (pyStrip (lines.headD [])) }
  let metadata := { metadata with abstract := extract_abstract content }
  (content, metadata)

/-- The spec's notion used by claim C8: the first line of the text that is
nonempty. -/
def firstNonEmptyLine (s : Str) : Option Str :=
  (pySplitOnChar '\n' s).find? (fun l => !l.isEmpty)

/-! ## ContentAddressing / upload validation
(`FileService.save_uploaded_file`, src/backend/services/file_service.py,
lines 39-77; `DocumentBase.validate_file_size`, src/backend/models/document.py,
lines 78-84; `upload_document`, src/backend/routers/upload.py, lines 75-146)

File content enters validation only through its byte length, so uploads are
modelled by their length; persisted files are recorded as (name, length)
pairs. -/

/-- The spec's error taxonomy for upload validation; the source raises
`ValueError` with the corresponding message in each case. -/
inductive UploadError
  | unsupportedType
  | sizeExceeded
deriving DecidableEq, Repr

/-- `Settings` (src/backend/config/settings.py, lines 40-43). -/
structure Settings where
  max_upload_size : Nat := 200 * 1024 * 1024
  allowed_extensions : List Str := [".pdf".toList, ".docx".toList, ".txt".toList]

/-- The default settings instance (`settings = get_settings()`). -/
def defaultSettings : Settings := {}

/-- Storage plus document store touched by an upload request. -/
structure PipelineState where
  storedFiles : List (Str × Nat) := []
  documents : List DocumentInDB := []
deriving DecidableEq, Repr

/-- The empty state before any upload. -/
def initState : PipelineState := {}

/-- `FileService.save_uploaded_file`: reject a disallowed extension, then a
byte length strictly over `max_upload_size`; only then persist the file.
The returned text is the path handed back to the router. -/
def save_uploaded_file (st : Settings) (content_len : Nat) (filename : Str)
    (ps : PipelineState) : Except UploadError Str × PipelineState :=
  let file_ext := pyLower (pathSuffix filename)
  if file_ext ∈ st.allowed_extensions then
    if content_len > st.max_upload_size then (.error .sizeExceeded, ps)
    else (.ok filename, { ps with storedFiles := ps.storedFiles ++ [(filename, content_len)] })
  else (.error .unsupportedType, ps)

/-- `DocumentBase.validate_file_size`: pydantic rejects a `file_size` over
10 MiB when the `DocumentCreate` record is constructed. -/
def validate_file_size (v : Nat) : Except UploadError Nat :=
  if v > 10 * 1024 * 1024 then .error .sizeExceeded else .ok v

/-- `DocumentOperations.create_document`
(src/backend/database/operations.py, lines 130-142): a fresh record with the
`DocumentInDB` defaults (status UPLOADING, no processed date). -/
def create_document (user_id filename : Str) (file_size : Nat) (now : Nat) :
    DocumentInDB :=
  { user_id := user_id, filename := filename, file_path := filename,
    file_size := file_size, upload_date := now, last_accessed := now }

/-- The synchronous part of `upload_document` (routers/upload.py): save the
file, build the `DocumentCreate` record (running the pydantic size
validator), then insert the document.  A validator failure happens after the
file write and leaves the stored file behind. -/
def upload_document (st : Settings) (now : Nat) (content_len : Nat)
    (filename user_id : Str) (ps : PipelineState) :
    Except UploadError DocumentInDB × PipelineState :=
  match save_uploaded_file st content_len filename ps with
  | (.error e, ps1) => (.error e, ps1)
  | (.ok path, ps1) =>
    match validate_file_size content_len with
    | .error e => (.error e, ps1)
    | .ok _ =>
      let doc := create_document user_id path content_len now
      (.ok doc, { ps1 with documents := ps1.documents ++ [doc] })

/-! ## Document store operations
(`DocumentOperations`, src/backend/database/operations.py) -/

/-- `DocumentOperations.update_document` (operations.py, lines 188-203):
merge exactly the set fields of the update into the record, and stamp
`processed_date` whenever the update carries status READY.  No field of the
record other than the five update fields and `processed_date` is written. -/
def update_document (now : Nat) (u : DocumentUpdate) (d : DocumentInDB) :
    DocumentInDB :=
  { d with
    metadata := u.metadata.getD d.metadata,
    content := match u.content with
      | some c => some c
      | none => d.content,
    tags := u.tags.getD d.tags,
    notes := match u.notes with
      | some n => some n
      | none => d.notes,
    status := u.status.getD d.status,
    processed_date :=
      if u.status = some .ready then some now else d.processed_date }

/-- The operations of the pipeline that touch one stored document record:
`update_document`, the `last_accessed` stamp of `get_document`
(operations.py, lines 144-155), and the soft delete of `delete_document`
(operations.py, lines 228-235). -/
inductive DocOp
  | update (now : Nat) (u : DocumentUpdate)
  | get (now : Nat)
  | delete
deriving DecidableEq, Repr

/-- Effect of one operation on a document record. -/
def applyOp (d : DocumentInDB) : DocOp → DocumentInDB
  | .update now u => update_document now u d
  | .get now => { d with last_accessed := now }
  | .delete => { d with status := .deleted }

/-- Run a sequence of operations on a record. -/
def runOps (d : DocumentInDB) (ops : List DocOp) : DocumentInDB :=
  ops.foldl applyOp d

/-- All intermediate states of a run, the initial and final ones included. -/
def states (d : DocumentInDB) : List DocOp → List DocumentInDB
  | [] => [d]
  | op :: ops => d :: states (applyOp d op) ops

/-- Does the operation carry an explicit status READY? -/
def setsReadyB : DocOp → Bool
  | .update _ u => match u.status with
    | some .ready => true
    | _ => false
  | _ => false

/-- Does the operation leave the status field untouched? -/
def keepsStatusB : DocOp → Bool
  | .update _ u => match u.status with
    | some _ => false
    | none => true
  | .get _ => true
  | .delete => false

/-- Does the operation map a DELETED record to a DELETED record?  Only an
update carrying an explicit status other than DELETED fails this. -/
def preservesDeletedB : DocOp → Bool
  | .update _ u => match u.status with
    | none => true
    | some .deleted => true
    | some _ => false
  | .get _ => true
  | .delete => true

/-! ## IngestionPipeline: background extraction
(`process_document_background`, src/backend/routers/upload.py, lines 32-72) -/

/-- Python truthiness of an optional text field: `None` and the empty text
are falsy. -/
def pyTruthy : Option Str → Bool
  | none => false
  | some s => !s.isEmpty

/-- Python `a or b` on optional text. -/
def pyOrOpt (a b : Option Str) : Option Str :=
  if pyTruthy a then a else b

/-- Python `a or b` on lists (the empty list is falsy). -/
def pyOrList (a b : List Str) : List Str :=
  if a.isEmpty then b else a

/-- The AI-enrichment merge of `process_document_background` (upload.py,
lines 42-48): runs only when title or abstract is falsy; title, abstract and
keywords are filled only if falsy, while main_topics and key_findings are
overwritten. -/
def enrich_metadata (m ai : DocumentMetadata) : DocumentMetadata :=
  if !pyTruthy m.title || !pyTruthy m.abstract then
    { m with
      title := pyOrOpt m.title ai.title,
      abstract := pyOrOpt m.abstract ai.abstract,
      keywords := pyOrList m.keywords ai.keywords,
      main_topics := ai.main_topics,
      key_findings := ai.key_findings }
  else m

/-- Outcome of `file_service.extract_text_content` for one document: the
extracted text and metadata, or the message of the raised exception. -/
inductive ExtractOutcome
  | ok (content : Str) (metadata : DocumentMetadata)
  | err (msg : Str)
deriving DecidableEq, Repr

/-- The failure-path update of `process_document_background`.  The source
passes `status=FAILED, error_message=str(e)`, but `DocumentUpdate` declares
no `error_message` field and pydantic silently ignores unknown keyword
arguments, so only the status survives. -/
def failedUpdate (_errText : Str) : DocumentUpdate :=
  { status := some .failed }

/-- The success-path update of `process_document_background`: content,
enriched metadata and status READY (the `content_embedding` keyword argument
is likewise dropped by the `DocumentUpdate` schema). -/
def readyUpdate (content : Str) (metadata : DocumentMetadata) : DocumentUpdate :=
  { content := some content, metadata := some metadata, status := some .ready }

/-- `process_document_background` as the sequence of store operations it
issues for its document: exactly one update, with no PROCESSING transition
and no retry on failure. -/
def process_document_background (outcome : ExtractOutcome)
    (ai : DocumentMetadata) (now : Nat) : List DocOp :=
  match outcome with
  | .err e => [.update now (failedUpdate e)]
  | .ok content metadata =>
    [.update now (readyUpdate content (enrich_metadata metadata ai))]

/-! ## Document store with ids
(`DocumentOperations.get_document`, operations.py, lines 144-155) -/

/-- The documents collection: records addressed by id (Mongo `_id` lookup
matches at most one record; `find_one` and `update_one` both act on the
first match). -/
abbrev Store := List (Str × DocumentInDB)

/-- `find_one({"_id": id})`. -/
def findDoc (db : Store) (idq : Str) : Option DocumentInDB :=
  (db.find? (fun p => p.1 == idq)).map (fun p => p.2)

/-- `update_one({"_id": id}, ...)`: rewrite the first matching record. -/
def updateFirst (idq : Str) (f : DocumentInDB → DocumentInDB) :
    Store → Store
  | [] => []
  | p :: rest =>
    if p.1 == idq then (p.1, f p.2) :: rest
    else p :: updateFirst idq f rest

/-- `DocumentOperations.get_document`: on a hit, stamp `last_accessed` on the
stored record and return the record as read (before the stamp); on a miss
return `none` and leave the store unchanged. -/
def get_document (db : Store) (idq : Str) (now : Nat) :
    Option DocumentInDB × Store :=
  match findDoc db idq with
  | none => (none, db)
  | some d =>
    (some d, updateFirst idq (fun r => { r with last_accessed := now }) db)

/-! ## Concrete inputs used by witnesses and counterexamples -/

/-- Extraction failure used by claim C2: a `paper.pdf` whose bytes are not
valid PDF structure. -/
def extractFailC2 : ExtractOutcome :=
  .err ("ExtractionError: invalid PDF structure".toList)

/-- Freshly created document record used by claim C2. -/
def docC2 : DocumentInDB := create_document ("u1".toList) ("paper.pdf".toList) 9 0

/-- The operations the background task issues for claim C2's failing run. -/
def opsC2 : List DocOp := process_document_background extractFailC2 {} 9

/-- A record already soft-deleted, used by claim C5's witness. -/
def docC5 : DocumentInDB := { create_document ("u1".toList) ("a.txt".toList) 3 0 with
  status := .deleted }

/-- Operations that carry no explicit status, used by claim C5's witness. -/
def opsC5 : List DocOp :=
  [DocOp.get 5, DocOp.update 6 { notes := some ("kept".toList) }, DocOp.delete]

/-! # Theorems -/

/-! ## Helper lemmas on the string primitives -/

theorem pySplitOnChar_ne_nil (sep : Char) (s : Str) : pySplitOnChar sep s ≠ [] := by
  cases s with
  | nil => simp [pySplitOnChar]
  | cons c cs =>
    unfold pySplitOnChar
    by_cases h : c = sep
    · simp [h]
    · simp only [if_neg h]
      split <;> simp

/-! ## Claim C1 -/

/-- Claim C1: the extension and file-service size checks do fail before any
write, but the claim's boundary sentence is false on the code: an upload of
exactly `max_upload_size` (200 MiB) bytes passes `save_uploaded_file`, is
persisted, and then fails with SizeExceeded from the 10 MiB validator on
`DocumentBase.file_size` — a failure after a storage write, with the file
left behind and no document record created. -/
theorem C1_exact_max_size_persists_then_fails :
    (upload_document defaultSettings 0 (200 * 1024 * 1024) ("paper.txt".toList)
        ("u1".toList) initState).1 = Except.error UploadError.sizeExceeded ∧
    (upload_document defaultSettings 0 (200 * 1024 * 1024) ("paper.txt".toList)
        ("u1".toList) initState).2.storedFiles =
      [("paper.txt".toList, 200 * 1024 * 1024)] ∧
    (upload_document defaultSettings 0 (200 * 1024 * 1024) ("paper.txt".toList)
        ("u1".toList) initState).2.documents = [] ∧
    (upload_document defaultSettings 0 (200 * 1024 * 1024 + 1) ("paper.txt".toList)
        ("u1".toList) initState) = (Except.error UploadError.sizeExceeded, initState) ∧
    (upload_document defaultSettings 0 100 ("paper.exe".toList)
        ("u1".toList) initState) = (Except.error UploadError.unsupportedType, initState) :=
  ⟨rfl, rfl, rfl, rfl, rfl⟩

/-! ## Claim C2 -/

/-- Claim C2: on an extraction failure the background task issues exactly one
update (no retry), the document becomes FAILED and its content stays `None`,
but `error_message` is NOT recorded: `DocumentUpdate` declares no
`error_message` field, so pydantic drops the stringified cause and the
stored record keeps `error_message = None`. -/
theorem C2_error_message_dropped :
    opsC2 = [DocOp.update 9 { status := some DocumentStatus.failed }] ∧
    (runOps docC2 opsC2).status = DocumentStatus.failed ∧
    (runOps docC2 opsC2).error_message = none ∧
    (runOps docC2 opsC2).content = none := by
  refine ⟨rfl, rfl, rfl, rfl⟩

/-! ## Claim C5 -/

/-- Claim C5 counterexample: DELETED is not terminal.  `delete` does set
status DELETED, but `update_document` applies any supplied status without a
guard, so the very update the background extraction issues moves the deleted
record to READY. -/
theorem C5_deleted_escape_counterexample :
    (applyOp (create_document ("u1".toList) ("a.txt".toList) 3 0)
        DocOp.delete).status = DocumentStatus.deleted ∧
    (applyOp (applyOp (create_document ("u1".toList) ("a.txt".toList) 3 0)
          DocOp.delete)
        (DocOp.update 7 { status := some DocumentStatus.ready })).status =
      DocumentStatus.ready ∧
    DocumentStatus.ready ≠ DocumentStatus.deleted := by
  refine ⟨rfl, rfl, by decide⟩

/-- One operation that preserves DELETED keeps the record DELETED. -/
theorem applyOp_preserves_deleted (d : DocumentInDB) (op : DocOp)
    (hd : d.status = .deleted) (hp : preservesDeletedB op = true) :
    (applyOp d op).status = .deleted := by
  cases op with
  | update now u =>
    cases hu : u.status with
    | none => simp [applyOp, update_document, hu, hd]
    | some s =>
      cases s <;> simp_all [applyOp, update_document, preservesDeletedB, hu]
  | get now => simpa [applyOp] using hd
  | delete => simp [applyOp]

/-- Claim C5, amended: `delete` sets status DELETED, and a DELETED record
stays DELETED under every pipeline operation that does not carry an explicit
non-DELETED status (reads, deletes, and updates whose status field is
unset); `update_document` itself enforces no terminality, see the
counterexample. -/
theorem C5_soft_delete_amended (d : DocumentInDB) (ops : List DocOp)
    (hd : d.status = .deleted)
    (hp : ∀ op ∈ ops, preservesDeletedB op = true) :
    (runOps d ops).status = .deleted ∧
    (applyOp d DocOp.delete).status = .deleted := by
  refine ⟨?_, by simp [applyOp]⟩
  induction ops generalizing d with
  | nil => exact hd
  | cons op ops ih =>
    have h1 := applyOp_preserves_deleted d op hd (hp op (by simp))
    exact ih (applyOp d op) h1 (fun o ho => hp o (by simp [ho]))

/-- Witness for claim C5's amended theorem at a concrete deleted record and a
concrete status-free operation sequence. -/
theorem C5_soft_delete_amended_witness :
    (runOps docC5 opsC5).status = DocumentStatus.deleted :=
  (C5_soft_delete_amended docC5 opsC5 rfl (by decide)).1

/-! ## Claim C6 -/

/-- Claim C6 counterexample: the line "2." has text "2" before its first
period, entirely numeric, yet `_is_section_header` classifies it as NOT a
header — a line of at most 3 whitespace tokens is decided solely by the
keyword test, which "2." fails. -/
theorem C6_numeric_line_counterexample :
    pyIsDigitStr ((pySplitOnChar '.' (pyStrip ("2.".toList))).headD []) = true ∧
    (pySplitWs (pyStrip ("2.".toList))).length ≤ 3 ∧
    is_section_header ("2.".toList) = false := by
  refine ⟨rfl, by decide, rfl⟩

/-- Claim C6, amended: the numbered-section rule applies only to lines of
more than 3 whitespace tokens (shorter lines are decided by the keyword
test alone, so "2." is not a header); "2. Methodology" is a header (via the
keyword) and "This explains the approach in detail." is not. -/
theorem C6_section_header_amended (line : Str)
    (h3 : 3 < (pySplitWs (pyStrip line)).length)
    (hd : pyIsDigitStr ((pySplitOnChar '.' (pyStrip line)).headD []) = true) :
    is_section_header line = true ∧
    is_section_header ("2. Methodology".toList) = true ∧
    is_section_header ("This explains the approach in detail.".toList) = false := by
  refine ⟨?_, by decide, by decide⟩
  unfold is_section_header
  rw [if_neg (by omega), if_pos hd]

/-- Witness for claim C6's amended theorem on a concrete numbered header of
more than three tokens. -/
theorem C6_section_header_amended_witness :
    is_section_header ("2. Results of the study".toList) = true :=
  (C6_section_header_amended ("2. Results of the study".toList)
    (by decide) (by decide)).1

/-! ## Claim C8 -/

/-- Claim C8 counterexample: for the TXT content "\nTitle Line" the first
non-empty line is "Title Line", but `_extract_from_txt` sets the title to
the stripped FIRST line, here the empty text. -/
theorem C8_first_line_counterexample :
    (extract_from_txt (("\nTitle Line").toList)).2.title = some [] ∧
    firstNonEmptyLine (("\nTitle Line").toList) = some ("Title Line".toList) ∧
    some ([] : Str) ≠ some ("Title Line".toList) := by
  refine ⟨rfl, rfl, by decide⟩

/-- Claim C8, amended: TXT extraction returns the decoded text unchanged as
the content, and the title is the stripped first line of that text (which
may be empty) rather than the first non-empty line; `total_words` is the
whitespace token count and the abstract comes from the shared heuristic. -/
theorem C8_txt_extraction_amended (content : Str) :
    (extract_from_txt content).1 = content ∧
    (extract_from_txt content).2.title =
      some (pyStrip ((pySplitOnChar '\n' content).headD [])) ∧
    (extract_from_txt content).2.total_words = some (pySplitWs content).length ∧
    (extract_from_txt content).2.abstract = extract_abstract content := by
  have h : (pySplitOnChar '\n' content).isEmpty = false := by
    cases hq : pySplitOnChar '\n' content with
    | nil => exact absurd hq (pySplitOnChar_ne_nil '\n' content)
    | cons a l => rfl
  refine ⟨rfl, ?_, ?_, ?_⟩ <;> simp [extract_from_txt, h]

/-! ## Claim C4 -/

/-- One operation leaves `processed_date` unset exactly when it was unset
before and the operation does not carry status READY. -/
theorem applyOp_processed_date_none (d : DocumentInDB) (op : DocOp) :
    (applyOp d op).processed_date = none ↔
      d.processed_date = none ∧ setsReadyB op = false := by
  cases op with
  | update now u =>
    cases hu : u.status with
    | none => simp [applyOp, update_document, setsReadyB, hu]
    | some s => cases s <;> simp [applyOp, update_document, setsReadyB, hu]
  | get now => simp [applyOp, setsReadyB]
  | delete => simp [applyOp, setsReadyB]

/-- A run leaves `processed_date` unset exactly when it started unset and no
operation of the run carries status READY. -/
theorem runOps_processed_date_none (ops : List DocOp) (d : DocumentInDB) :
    (runOps d ops).processed_date = none ↔
      d.processed_date = none ∧ ∀ op ∈ ops, setsReadyB op = false := by
  induction ops generalizing d with
  | nil => simp [runOps]
  | cons op ops ih =>
    have hstep : runOps d (op :: ops) = runOps (applyOp d op) ops := rfl
    rw [hstep, ih, applyOp_processed_date_none]
    simp only [List.mem_cons, forall_eq_or_imp]
    tauto

/-- The state after one operation is READY exactly when the operation carries
status READY, or keeps the status and the state was already READY. -/
theorem applyOp_status_ready (d : DocumentInDB) (op : DocOp) :
    (applyOp d op).status = .ready ↔
      setsReadyB op = true ∨ (keepsStatusB op = true ∧ d.status = .ready) := by
  cases op with
  | update now u =>
    cases hu : u.status with
    | none => simp [applyOp, update_document, setsReadyB, keepsStatusB, hu]
    | some s =>
      cases s <;>
        simp [applyOp, update_document, setsReadyB, keepsStatusB, hu]
  | get now => simp [applyOp, setsReadyB, keepsStatusB]
  | delete => simp [applyOp, setsReadyB, keepsStatusB]

/-- READY appears among the intermediate states exactly when the run started
READY or some operation carries status READY. -/
theorem states_ready_iff (ops : List DocOp) (d : DocumentInDB) :
    (∃ s ∈ states d ops, s.status = .ready) ↔
      d.status = .ready ∨ ∃ op ∈ ops, setsReadyB op = true := by
  induction ops generalizing d with
  | nil => simp [states]
  | cons op ops ih =>
    simp only [states, List.mem_cons, List.mem_singleton]
    constructor
    · rintro ⟨s, hs, hready⟩
      rcases hs with rfl | hs
      · exact Or.inl hready
      · rcases (ih (applyOp d op)).mp ⟨s, hs, hready⟩ with h1 | ⟨o, ho, hso⟩
        · rcases (applyOp_status_ready d op).mp h1 with h2 | ⟨_, h3⟩
          · exact Or.inr ⟨op, Or.inl rfl, h2⟩
          · exact Or.inl h3
        · exact Or.inr ⟨o, Or.inr ho, hso⟩
    · rintro (h1 | ⟨o, ho | ho, hso⟩)
      · exact ⟨d, Or.inl rfl, h1⟩
      · obtain ⟨s, hs, hready⟩ := (ih (applyOp d op)).mpr
          (Or.inl ((applyOp_status_ready d op).mpr (Or.inl (ho ▸ hso))))
        exact ⟨s, Or.inr hs, hready⟩
      · obtain ⟨s, hs, hready⟩ := (ih (applyOp d op)).mpr (Or.inr ⟨o, ho, hso⟩)
        exact ⟨s, Or.inr hs, hready⟩

/-- Claim C4: starting from a freshly created record, `processed_date` is set
after a run exactly when some intermediate state reached status READY;
moreover every update carrying status READY stamps `processed_date`, and no
other operation (update without READY, read stamp, soft delete) writes
it. -/
theorem C4_processed_date_iff_ready (user_id filename : Str)
    (size now0 : Nat) (ops : List DocOp) :
    ((runOps (create_document user_id filename size now0) ops).processed_date ≠ none ↔
      ∃ s ∈ states (create_document user_id filename size now0) ops,
        s.status = DocumentStatus.ready) ∧
    (∀ now u d, u.status = some DocumentStatus.ready →
      (update_document now u d).processed_date = some now) ∧
    (∀ now u d, u.status ≠ some DocumentStatus.ready →
      (update_document now u d).processed_date = d.processed_date) ∧
    (∀ d now, (applyOp d (DocOp.get now)).processed_date = d.processed_date) ∧
    (∀ d, (applyOp d DocOp.delete).processed_date = d.processed_date) := by
  refine ⟨?_, ?_, ?_, ?_, ?_⟩
  · rw [ne_eq, runOps_processed_date_none, states_ready_iff]
    have h0 : (create_document user_id filename size now0).processed_date = none := rfl
    have h0s : (create_document user_id filename size now0).status =
      DocumentStatus.uploading := rfl
    simp [h0, h0s]
  · intro now u d h
    simp [update_document, h]
  · intro now u d h
    simp [update_document, h]
  · intro d now
    rfl
  · intro d
    rfl

/-- Witness for claim C4 at a concrete READY update. -/
theorem C4_processed_date_iff_ready_witness :
    (update_document 4 (readyUpdate ("text".toList) {})
        (create_document ("u1".toList) ("p.txt".toList) 9 0)).processed_date =
      some 4 :=
  (C4_processed_date_iff_ready [] [] 0 0 []).2.1 4 (readyUpdate ("text".toList) {})
    (create_document ("u1".toList) ("p.txt".toList) 9 0) rfl

/-! ## Claim C3 -/

/-- A successful run used by claim C3: valid extraction of a short text. -/
def extractOkC3 : ExtractOutcome :=
  .ok ("Body text".toList) { title := some ("A title long enough".toList) }

/-- Freshly created record used by claim C3. -/
def docC3 : DocumentInDB := create_document ("u1".toList) ("p.txt".toList) 5 0

/-- The operations the background task issues for claim C3's successful
run. -/
def opsC3 : List DocOp := process_document_background extractOkC3 {} 7

/-- Claim C3 counterexample: on a successful extraction the document goes
directly from UPLOADING to READY — no intermediate PROCESSING state ever
occurs, and `processing_time_seconds` is never recorded (the update schema
cannot even carry it), contradicting the claimed PROCESSING transition and
wall-clock recording. -/
theorem C3_no_processing_counterexample :
    (states docC3 opsC3).map DocumentInDB.status =
      [DocumentStatus.uploading, DocumentStatus.ready] ∧
    DocumentStatus.processing ∉ (states docC3 opsC3).map DocumentInDB.status ∧
    (runOps docC3 opsC3).processing_time_seconds = none := by
  refine ⟨rfl, by decide, rfl⟩

/-- Claim C3, amended: `run_extraction` never moves the document through
PROCESSING and never records `processing_time_seconds`; on success it issues
a single update that sets status READY (with `processed_date` stamped by
`update_document`). -/
theorem C3_run_extraction_amended (d : DocumentInDB) (content : Str)
    (metadata ai : DocumentMetadata) (now : Nat)
    (hp : d.status ≠ DocumentStatus.processing)
    (ht : d.processing_time_seconds = none) :
    (∀ s ∈ states d (process_document_background (.ok content metadata) ai now),
      s.status ≠ DocumentStatus.processing) ∧
    (runOps d (process_document_background (.ok content metadata) ai now)).status =
      DocumentStatus.ready ∧
    (runOps d (process_document_background (.ok content metadata) ai now)).processed_date =
      some now ∧
    (runOps d (process_document_background
      (.ok content metadata) ai now)).processing_time_seconds = none := by
  refine ⟨?_, ?_, ?_, ?_⟩
  · intro s hs
    simp only [process_document_background, states, List.mem_cons,
      List.mem_singleton, List.not_mem_nil, or_false] at hs
    rcases hs with rfl | rfl
    · exact hp
    · simp [applyOp, update_document, readyUpdate]
  · simp [runOps, applyOp, process_document_background, update_document, readyUpdate]
  · simp [runOps, applyOp, process_document_background, update_document, readyUpdate]
  · simpa [runOps, applyOp, process_document_background, update_document,
      readyUpdate] using ht

/-- Witness for claim C3's amended theorem on the concrete successful run. -/
theorem C3_run_extraction_amended_witness :
    (runOps docC3 (process_document_background
      (.ok ("Body text".toList) { title := some ("A title long enough".toList) })
      {} 7)).status = DocumentStatus.ready :=
  (C3_run_extraction_amended docC3 ("Body text".toList)
    { title := some ("A title long enough".toList) } {} 7 (by decide) rfl).2.1

/-! ## Claim C9 -/

/-- Claim C9: the AI-enrichment merge never overwrites a truthy (populated)
title or abstract, and a title or abstract that changes must have been empty
before the merge — the fill-if-empty policy for the scalar fields. -/
theorem C9_fill_if_empty (m ai : DocumentMetadata) :
    (pyTruthy m.title = true → (enrich_metadata m ai).title = m.title) ∧
    (pyTruthy m.abstract = true → (enrich_metadata m ai).abstract = m.abstract) ∧
    ((enrich_metadata m ai).title ≠ m.title → pyTruthy m.title = false) ∧
    ((enrich_metadata m ai).abstract ≠ m.abstract → pyTruthy m.abstract = false) := by
  unfold enrich_metadata pyOrOpt
  by_cases h1 : pyTruthy m.title <;> by_cases h2 : pyTruthy m.abstract <;>
    simp [h1, h2]

/-- Extractor-produced metadata with a populated title and empty abstract,
used by claim C9's witness. -/
def mC9 : DocumentMetadata := { title := some ("Attention Is All You Need".toList) }

/-- AI metadata proposing a different title, used by claim C9's witness. -/
def aiC9 : DocumentMetadata :=
  { title := some ("Some AI generated title".toList),
    abstract := some ("An AI generated abstract".toList) }

/-- Witness for claim C9: enrichment runs (the abstract is empty) and the
populated title survives unchanged. -/
theorem C9_fill_if_empty_witness : (enrich_metadata mC9 aiC9).title = mC9.title :=
  (C9_fill_if_empty mC9 aiC9).1 rfl

/-! ## Claim C10 -/

/-- Rewriting the first record matching an id changes that record's lookup to
the rewritten value. -/
theorem findDoc_updateFirst_self (db : Store) (idq : Str)
    (f : DocumentInDB → DocumentInDB) (d : DocumentInDB)
    (h : findDoc db idq = some d) :
    findDoc (updateFirst idq f db) idq = some (f d) := by
  induction db with
  | nil => simp [findDoc] at h
  | cons p rest ih =>
    by_cases hb : (p.1 == idq) = true
    · have h2 : p.2 = d := by
        simp only [findDoc, List.find?, hb, Option.map_some'] at h
        exact Option.some.inj h
      have hu : updateFirst idq f (p :: rest) = (p.1, f p.2) :: rest := by
        simp only [updateFirst, if_pos hb]
      rw [hu]
      simp only [findDoc, List.find?, hb, Option.map_some', h2]
    · have h' : findDoc rest idq = some d := by
        simpa only [findDoc, List.find?, hb] using h
      have hu : updateFirst idq f (p :: rest) = p :: updateFirst idq f rest := by
        simp only [updateFirst, if_neg hb]
      rw [hu]
      simpa only [findDoc, List.find?, hb] using ih h'

/-- Rewriting the first record matching an id leaves the lookup of every
other id unchanged. -/
theorem findDoc_updateFirst_other (db : Store) (idq j : Str)
    (f : DocumentInDB → DocumentInDB) (hj : j ≠ idq) :
    findDoc (updateFirst idq f db) j = findDoc db j := by
  induction db with
  | nil => rfl
  | cons p rest ih =>
    by_cases hb : (p.1 == idq) = true
    · have hp : p.1 = idq := by simpa using hb
      have hpj : (p.1 == j) = false := by
        simp only [hp, beq_eq_false_iff_ne, ne_eq]
        exact fun hh => hj hh.symm
      simp [findDoc, updateFirst, hb, hpj]
    · by_cases hpj : (p.1 == j) = true
      · simp [findDoc, updateFirst, hb, hpj]
      · have ih' := ih
        simp only [findDoc] at ih' ⊢
        simp [updateFirst, hb, hpj, ih']

/-- Claim C10: a successful `get_document` returns the record as stored,
stamps only `last_accessed` on the stored record (every other field is
unchanged, other ids are untouched), and a miss returns `none` and leaves
the store as it was. -/
theorem C10_get_document (db : Store) (idq : Str) (now : Nat) :
    (∀ d, findDoc db idq = some d →
      (get_document db idq now).1 = some d ∧
      findDoc (get_document db idq now).2 idq =
        some { d with last_accessed := now } ∧
      ∀ j, j ≠ idq →
        findDoc (get_document db idq now).2 j = findDoc db j) ∧
    (findDoc db idq = none → get_document db idq now = (none, db)) := by
  constructor
  · intro d h
    refine ⟨?_, ?_, ?_⟩
    · simp [get_document, h]
    · simp only [get_document, h]
      exact findDoc_updateFirst_self db idq _ d h
    · intro j hj
      simp only [get_document, h]
      exact findDoc_updateFirst_other db idq j _ hj
  · intro h
    simp [get_document, h]

/-- Two stored records used by claim C10's witness. -/
def docC10a : DocumentInDB := create_document ("u1".toList) ("a.txt".toList) 3 0

/-- Second stored record used by claim C10's witness. -/
def docC10b : DocumentInDB := create_document ("u2".toList) ("b.txt".toList) 4 0

/-- A concrete two-document store used by claim C10's witness. -/
def dbC10 : Store := [("a".toList, docC10a), ("b".toList, docC10b)]

/-- Witness for claim C10: fetching the first document stamps its
`last_accessed` in the store. -/
theorem C10_get_document_witness :
    findDoc (get_document dbC10 ("a".toList) 42).2 ("a".toList) =
      some { docC10a with last_accessed := 42 } :=
  ((C10_get_document dbC10 ("a".toList) 42).1 docC10a rfl).2.1

/-! ## Claim C7 -/

/-- Every token produced by the whitespace split is nonempty and free of
whitespace characters. -/
theorem splitWsAux_tokens (s : Str) : ∀ acc,
    (∀ c ∈ acc, pyIsSpace c = false) →
    ∀ t ∈ splitWsAux s acc, t ≠ [] ∧ ∀ c ∈ t, pyIsSpace c = false := by
  induction s with
  | nil =>
    intro acc hacc t ht
    simp only [splitWsAux] at ht
    by_cases he : acc.isEmpty
    · simp [he] at ht
    · rw [if_neg he] at ht
      have ht' : t = acc.reverse := by simpa using ht
      subst ht'
      refine ⟨?_, ?_⟩
      · simp only [ne_eq, List.reverse_eq_nil_iff]
        simpa [List.isEmpty_iff] using he
      · intro c hc
        exact hacc c (List.mem_reverse.mp hc)
  | cons c cs ih =>
    intro acc hacc t ht
    simp only [splitWsAux] at ht
    by_cases hsp : pyIsSpace c
    · rw [if_pos hsp] at ht
      by_cases he : acc.isEmpty
      · rw [if_pos he] at ht
        exact ih [] (by simp) t ht
      · rw [if_neg he] at ht
        rcases List.mem_cons.mp ht with rfl | ht'
        · refine ⟨?_, ?_⟩
          · simp only [ne_eq, List.reverse_eq_nil_iff]
            simpa [List.isEmpty_iff] using he
          · intro x hx
            exact hacc x (List.mem_reverse.mp hx)
        · exact ih [] (by simp) t ht'
    · rw [if_neg hsp] at ht
      refine ih (c :: acc) ?_ t ht
      intro x hx
      rcases List.mem_cons.mp hx with rfl | hx'
      · simpa using hsp
      · exact hacc x hx'

/-- Token shape of the whitespace split. -/
theorem pySplitWs_tokens (s : Str) :
    ∀ t ∈ pySplitWs s, t ≠ [] ∧ ∀ c ∈ t, pyIsSpace c = false :=
  splitWsAux_tokens s [] (by simp)

/-- Splitting whitespace-free text yields one token. -/
theorem splitWsAux_no_space (cs : Str) : ∀ acc,
    (∀ c ∈ cs, pyIsSpace c = false) → (acc ≠ [] ∨ cs ≠ []) →
    splitWsAux cs acc = [acc.reverse ++ cs] := by
  induction cs with
  | nil =>
    intro acc _ hne
    have hacc : acc ≠ [] := by tauto
    simp [splitWsAux, hacc]
  | cons c cs ih =>
    intro acc h hne
    have hc : pyIsSpace c = false := h c (by simp)
    simp only [splitWsAux, hc, Bool.false_eq_true, if_false]
    rw [ih (c :: acc) (fun x hx => h x (by simp [hx])) (Or.inl (by simp))]
    simp

/-- A whitespace-free token followed by a space splits off as one token. -/
theorem splitWsAux_token_break (t : Str) : ∀ acc r,
    (∀ c ∈ t, pyIsSpace c = false) → (acc ≠ [] ∨ t ≠ []) →
    splitWsAux (t ++ ' ' :: r) acc = (acc.reverse ++ t) :: splitWsAux r [] := by
  induction t with
  | nil =>
    intro acc r _ hne
    have hacc : acc ≠ [] := by tauto
    have hsp : pyIsSpace ' ' = true := by decide
    simp [splitWsAux, hsp, hacc]
  | cons c t ih =>
    intro acc r h hne
    have hc : pyIsSpace c = false := h c (by simp)
    simp only [List.cons_append, splitWsAux, hc, Bool.false_eq_true, if_false,
      List.append_eq]
    rw [ih (c :: acc) r (fun x hx => h x (by simp [hx])) (Or.inl (by simp))]
    simp

/-- Joining good tokens with single spaces and appending whitespace-free
text to the last token preserves the token count under re-splitting. -/
theorem pySplitWs_join_append_length (ts : List Str) (d : Str)
    (hts : ts ≠ [])
    (hgood : ∀ t ∈ ts, t ≠ [] ∧ ∀ c ∈ t, pyIsSpace c = false)
    (hd : ∀ c ∈ d, pyIsSpace c = false) :
    (pySplitWs (pyJoin [' '] ts ++ d)).length = ts.length := by
  induction ts with
  | nil => exact absurd rfl hts
  | cons t ts ih =>
    cases ts with
    | nil =>
      have hg := hgood t (by simp)
      have hone : pySplitWs (t ++ d) = [([] : Str).reverse ++ (t ++ d)] := by
        apply splitWsAux_no_space
        · intro c hc
          rcases List.mem_append.mp hc with h1 | h2
          · exact hg.2 c h1
          · exact hd c h2
        · right
          simp [hg.1]
      simp [pyJoin, hone]
    | cons t2 ts2 =>
      have hg := hgood t (by simp)
      have hjoin : pyJoin [' '] (t :: t2 :: ts2) =
          t ++ [' '] ++ pyJoin [' '] (t2 :: ts2) := rfl
      have harr : (t ++ [' '] ++ pyJoin [' '] (t2 :: ts2)) ++ d =
          t ++ ' ' :: (pyJoin [' '] (t2 :: ts2) ++ d) := by simp
      rw [hjoin, harr]
      show (splitWsAux (t ++ ' ' :: (pyJoin [' '] (t2 :: ts2) ++ d)) []).length = _
      rw [splitWsAux_token_break t [] _ hg.2 (Or.inr hg.1)]
      have hrest := ih (by simp) (fun x hx => hgood x (by simp [hx]))
      simp only [List.length_cons]
      simp only [pySplitWs] at hrest
      rw [hrest]
      rfl

/-- Claim C7, amended: the heuristic returns `none` exactly when "abstract"
does not occur (case-insensitively) or the resulting text — bounded by the
earliest end marker, stripped of a leading "abstract" token, truncated to
300 words — has 50 characters or FEWER (the source keeps only results
strictly longer than 50, so a 50-character abstract is discarded); any
returned abstract has at most 300 words, and when truncation occurred it
ends in the ellipsis marker. -/
theorem C7_extract_abstract_amended (s : Str) :
    (extract_abstract s = none ↔
      abstractStart s = none ∨
        ∃ i, abstractStart s = some i ∧ (abstractResult s i).length ≤ 50) ∧
    ∀ r, extract_abstract s = some r →
      (pySplitWs r).length ≤ 300 ∧
      ∀ i, abstractStart s = some i →
        300 < (pySplitWs (abstractCandidate s i)).length →
          ∃ t, r = t ++ ("...".toList) := by
  cases h : abstractStart s with
  | none =>
    constructor
    · simp [extract_abstract, h]
    · intro r hr
      simp [extract_abstract, h] at hr
  | some i =>
    constructor
    · by_cases h50 : 50 < (abstractResult s i).length
      · simp only [extract_abstract, h]
        rw [if_pos h50]
        simp only [reduceCtorEq, false_iff, not_or]
        refine ⟨by simp, ?_⟩
        rintro ⟨i', hi', hlen⟩
        have : i' = i := (Option.some.inj hi').symm
        subst this
        omega
      · simp only [extract_abstract, h]
        rw [if_neg h50]
        simp only [true_iff]
        exact Or.inr ⟨i, rfl, by omega⟩
    · intro r hr
      simp only [extract_abstract, h] at hr
      by_cases h50 : 50 < (abstractResult s i).length
      · rw [if_pos h50] at hr
        have hre : r = abstractResult s i := (Option.some.inj hr).symm
        subst hre
        constructor
        · unfold abstractResult
          by_cases htr : 300 < (pySplitWs (abstractCandidate s i)).length
          · rw [if_pos htr]
            have hne : (pySplitWs (abstractCandidate s i)).take 300 ≠ [] := by
              rw [← List.length_pos]
              simp only [List.length_take]
              omega
            have hgood : ∀ t ∈ (pySplitWs (abstractCandidate s i)).take 300,
                t ≠ [] ∧ ∀ c ∈ t, pyIsSpace c = false := by
              intro t ht
              exact pySplitWs_tokens _ t (List.take_subset _ _ ht)
            have hdots : ∀ c ∈ ("...".toList), pyIsSpace c = false := by decide
            rw [pySplitWs_join_append_length _ _ hne hgood hdots]
            simp only [List.length_take]
            omega
          · rw [if_neg htr]
            omega
        · intro i' hi' htr
          have : i' = i := (Option.some.inj hi').symm
          subst this
          unfold abstractResult
          rw [if_pos htr]
          exact ⟨_, rfl⟩
      · rw [if_neg h50] at hr
        exact absurd hr (by simp)

/-- Text whose bounded abstract candidate has exactly 50 characters, used by
claim C7's counterexample. -/
def contentC7 : Str := "abstract".toList ++ List.replicate 50 'a'

/-- Claim C7 counterexample: `contentC7` contains "abstract" and yields a
candidate of exactly 50 characters — NOT under 50 — yet the heuristic
returns `none`, because the source keeps only abstracts strictly longer
than 50 characters. -/
theorem C7_fifty_char_counterexample :
    extract_abstract contentC7 = none ∧
    abstractStart contentC7 = some 0 ∧
    (abstractCandidate contentC7 0).length = 50 ∧
    ¬ (abstractCandidate contentC7 0).length < 50 := by
  refine ⟨rfl, rfl, rfl, by decide⟩

/-- Text with an abstract of 60 characters, used by claim C7's witness. -/
def contentC7w : Str := "abstract ".toList ++ List.replicate 60 'b'

/-- Witness for claim C7's amended theorem: the returned abstract of
`contentC7w` has at most 300 words. -/
theorem C7_extract_abstract_amended_witness :
    (pySplitWs (List.replicate 60 'b')).length ≤ 300 :=
  (((C7_extract_abstract_amended contentC7w).2 (List.replicate 60 'b') rfl)).1

end RPS
